import Mathlib

/-!
Shallow embedding of `saphyr`'s default loader (`src/loader.rs`): the YAML
value model, the scalar resolver, and the event-driven stack machine
(`YamlLoader::on_event` / `YamlLoader::insert_new_node`), together with
theorems checking the specification's claims about them.

Conventions of the embedding:
- Rust `Vec` stacks (`doc_stack`, `key_stack`) become Lean lists with the
  *head* as the stack top (Rust pushes/pops at the end; only top access and
  push/pop are used, so the orientation is immaterial).
- `docs` keeps Rust's order: appending at the end.
- `anchor_map : BTreeMap<usize, Node>` is modelled as an association list
  where insertion conses a new binding at the front and lookup returns the
  first binding found; this matches `BTreeMap::insert`'s overwrite
  observationally, since the map is only read through `get`.
- Paths that panic in Rust (`unwrap` on an empty stack, `unreachable!`)
  return `none`; all normal paths return `some` of the next state.
-/

set_option autoImplicit false

namespace Saphyr

/-- The YAML value model (`Yaml` in the crate). `real` keeps the original
scalar text, as in the source. `hash` is an insertion-ordered association
list modelling `LinkedHashMap<Yaml, Yaml>`. -/
inductive Yaml where
  | null : Yaml
  | boolean (b : Bool) : Yaml
  | integer (i : Int) : Yaml
  | real (s : String) : Yaml
  | string (s : String) : Yaml
  | array (xs : List Yaml) : Yaml
  | hash (h : List (Yaml × Yaml)) : Yaml
  | badValue : Yaml

mutual

/-- Structural equality on `Yaml`, modelling the derived `PartialEq`/`Eq`
implementation used by `LinkedHashMap` key comparison. -/
def Yaml.beq : Yaml → Yaml → Bool
  | .null, .null => true
  | .boolean a, .boolean b => a == b
  | .integer a, .integer b => a == b
  | .real a, .real b => a == b
  | .string a, .string b => a == b
  | .array xs, .array ys => Yaml.beqList xs ys
  | .hash h1, .hash h2 => Yaml.beqPairs h1 h2
  | .badValue, .badValue => true
  | _, _ => false

/-- Elementwise `Yaml.beq` on lists. -/
def Yaml.beqList : List Yaml → List Yaml → Bool
  | [], [] => true
  | x :: xs, y :: ys => Yaml.beq x y && Yaml.beqList xs ys
  | _, _ => false

/-- Pairwise `Yaml.beq` on association lists. -/
def Yaml.beqPairs : List (Yaml × Yaml) → List (Yaml × Yaml) → Bool
  | [], [] => true
  | (k1, v1) :: r1, (k2, v2) :: r2 =>
      Yaml.beq k1 k2 && Yaml.beq v1 v2 && Yaml.beqPairs r1 r2
  | _, _ => false

end

/-- Model of `Yaml::is_array` (`loader.rs`, `impl LoadableYamlNode for Yaml`). -/
def Yaml.is_array : Yaml → Bool
  | .array _ => true
  | _ => false

/-- Model of `Yaml::is_hash`. -/
def Yaml.is_hash : Yaml → Bool
  | .hash _ => true
  | _ => false

/-- Model of `Yaml::is_badvalue`. -/
def Yaml.is_badvalue : Yaml → Bool
  | .badValue => true
  | _ => false

/-- Model of `hashlink::LinkedHashMap::insert` on the association-list
representation: if the key is already present (by structural equality) the
existing entry is removed and the new pair is appended at the back —
hashlink's `insert` moves an occupied entry to the back of the iteration
order before replacing its value — otherwise the pair is appended at the
back. (A `LinkedHashMap` never holds two equal keys, so removing the first
match suffices.) -/
def hashInsert (h : List (Yaml × Yaml)) (k v : Yaml) : List (Yaml × Yaml) :=
  match h with
  | [] => [(k, v)]
  | (k0, v0) :: rest =>
      if Yaml.beq k0 k then rest ++ [(k, v)] else (k0, v0) :: hashInsert rest k v

/-! ### Scalar parsing

Models of the standard-library parsers the resolver calls
(`str::parse::<bool>`, `str::parse::<i64>`, `str::parse::<f64>`) and of the
crate's `parse_f64`. Floating-point values are represented symbolically:
the loader never computes with the parsed double (`Real` keeps the text),
so only the success/failure and the infinity/NaN classification matter. -/

/-- Symbolic result of a float parse. `finite m e` stands for the decimal
value `m * 10 ^ e`; the rounding to a binary double is abstracted away
since the loader discards the parsed value. -/
inductive FloatVal where
  | posInf : FloatVal
  | negInf : FloatVal
  | nan : FloatVal
  | finite (m : Int) (e : Int) : FloatVal

/-- Model of `str::parse::<bool>`: accepts exactly `"true"` and `"false"`. -/
def parseBool (v : String) : Option Bool :=
  if v = "true" then some true
  else if v = "false" then some false
  else none

/-- Numeric value of a list of ASCII digits. -/
def digitsVal (ds : List Char) : Int :=
  ds.foldl (fun a c => a * 10 + ((c.toNat : Int) - 48)) 0

/-- Strip one optional leading sign, returning the sign as `1` or `-1`. -/
def stripSign : List Char → Int × List Char
  | '+' :: rest => (1, rest)
  | '-' :: rest => (-1, rest)
  | cs => (1, cs)

/-- Model of `str::parse::<i64>`: an optional sign followed by one or more ASCII
digits, with the value required to fit in a 64-bit signed integer. -/
def parseI64 (v : String) : Option Int :=
  let (sign, ds) := stripSign v.data
  if ds = [] ∨ ¬ ds.all Char.isDigit then none
  else
    let n := sign * digitsVal ds
    if -(2 ^ 63) ≤ n ∧ n ≤ 2 ^ 63 - 1 then some n else none

/-- Split a character list at the first character satisfying `p`; the
second component is `none` when no such character occurs. -/
def splitFirst (p : Char → Bool) : List Char → List Char × Option (List Char)
  | [] => ([], none)
  | c :: rest =>
      if p c then ([], some rest)
      else
        let (a, b) := splitFirst p rest
        (c :: a, b)

/-- The number part of Rust's `f64` grammar: mantissa digits with an
optional fraction point, then an optional exponent. The leading sign has
already been removed. -/
def parseDecimal (sign : Int) (cs : List Char) : Option FloatVal :=
  let (mantCs, expPart) := splitFirst (fun c => c = 'e' ∨ c = 'E') cs
  let (intCs, fracPart) := splitFirst (fun c => c = '.') mantCs
  let fracCs := fracPart.getD []
  if intCs.all Char.isDigit ∧ fracCs.all Char.isDigit ∧
      (intCs ≠ [] ∨ fracCs ≠ []) then
    let m := sign * digitsVal (intCs ++ fracCs)
    let e0 : Int := -(fracCs.length : Int)
    match expPart with
    | none => some (.finite m e0)
    | some ecs =>
        let (esign, eds) := stripSign ecs
        if eds ≠ [] ∧ eds.all Char.isDigit then
          some (.finite m (e0 + esign * digitsVal eds))
        else none
  else none

/-- Model of `str::parse::<f64>`: an optional sign followed by `inf`, `infinity` or
`nan` (case-insensitive), or a decimal number with optional fraction and
exponent. -/
def stdParseF64 (v : String) : Option FloatVal :=
  let (sign, cs) := stripSign v.data
  let lower := String.mk (cs.map Char.toLower)
  if lower = "inf" ∨ lower = "infinity" then
    some (if sign = 1 then .posInf else .negInf)
  else if lower = "nan" then some .nan
  else parseDecimal sign cs

/-- Model of `parse_f64` (`loader.rs:326`): the core-schema special tokens for the
infinities and NaN, falling back to the standard float parse. -/
def parse_f64 (v : String) : Option FloatVal :=
  if v = ".inf" ∨ v = ".Inf" ∨ v = ".INF" ∨ v = "+.inf" ∨ v = "+.Inf" ∨ v = "+.INF" then
    some .posInf
  else if v = "-.inf" ∨ v = "-.Inf" ∨ v = "-.INF" then
    some .negInf
  else if v = ".nan" ∨ v = "NaN" ∨ v = ".NAN" then
    some .nan
  else stdParseF64 v

/-- Modelled from the spec: `Yaml::from_str`, the implicit core-schema
inference for untagged plain scalars. It lives in the crate's `yaml.rs`,
which is not among the provided sources; the spec (§4.2 rule 4) says it
recognizes boolean/integer/float/null literals "by the same lexical rules
as above, else `String(text)`". -/
def Yaml.from_str (v : String) : Yaml :=
  if v = "~" ∨ v = "null" then .null
  else
    match parseBool v with
    | some b => .boolean b
    | none =>
        match parseI64 v with
        | some i => .integer i
        | none =>
            match parse_f64 v with
            | some _ => .real v
            | none => .string v

/-! ### Events and the loader state -/

/-- Scalar presentation styles (`TScalarStyle` from `saphyr-parser`). Only
plain vs. non-plain matters to the loader. -/
inductive TScalarStyle where
  | plain : TScalarStyle
  | singleQuoted : TScalarStyle
  | doubleQuoted : TScalarStyle
  | literal : TScalarStyle
  | folded : TScalarStyle
deriving DecidableEq

/-- An explicit tag: handle and suffix. -/
structure Tag where
  handle : String
  suffix : String
deriving DecidableEq

/-- The parser events consumed by `YamlLoader::on_event`. Anchor ids are
`usize` in Rust, modelled as `Nat`. The tag argument of the container
start events is ignored by the loader, as in the source (`_` patterns). -/
inductive Event where
  | nothing : Event
  | streamStart : Event
  | streamEnd : Event
  | documentStart : Event
  | documentEnd : Event
  | sequenceStart (aid : Nat) (tag : Option Tag) : Event
  | sequenceEnd : Event
  | mappingStart (aid : Nat) (tag : Option Tag) : Event
  | mappingEnd : Event
  | scalar (v : String) (style : TScalarStyle) (aid : Nat) (tag : Option Tag) : Event
  | alias (id : Nat) : Event

/-- The scalar resolution performed inline in the `Event::Scalar` arm of
`on_event` (`loader.rs:137`-`174`): non-plain styles are strings; a plain
scalar with an explicit core-schema tag is parsed according to the tag
suffix; other tags give strings; no tag defers to the implicit inference
`Yaml::from_str`. -/
def resolve_scalar (v : String) (style : TScalarStyle) (tag : Option Tag) : Yaml :=
  if style ≠ TScalarStyle.plain then
    Yaml.string v
  else
    match tag with
    | some t =>
        if t.handle = "tag:yaml.org,2002:" then
          if t.suffix = "bool" then
            match parseBool v with
            | none => Yaml.badValue
            | some b => Yaml.boolean b
          else if t.suffix = "int" then
            match parseI64 v with
            | none => Yaml.badValue
            | some i => Yaml.integer i
          else if t.suffix = "float" then
            match parse_f64 v with
            | some _ => Yaml.real v
            | none => Yaml.badValue
          else if t.suffix = "null" then
            if v = "~" ∨ v = "null" then Yaml.null else Yaml.badValue
          else Yaml.string v
        else Yaml.string v
    | none => Yaml.from_str v

/-- The loader state (`YamlLoader`): loaded documents, the open-container
stack paired with anchor ids (head = innermost), the pending-key stack
(head = slot of the innermost open hash), and the anchor table. -/
structure YamlLoader where
  docs : List Yaml
  doc_stack : List (Yaml × Nat)
  key_stack : List Yaml
  anchor_map : List (Nat × Yaml)

/-- Model of `YamlLoader::default`: everything empty. -/
def YamlLoader.default : YamlLoader :=
  { docs := [], doc_stack := [], key_stack := [], anchor_map := [] }

/-- Model of `YamlLoader::insert_new_node` (`loader.rs:193`-`217`). A positive
anchor id first records a clone of the node in the anchor table. An empty
`doc_stack` receives the node (with its anchor id) as the pending document
root. Otherwise the node goes into the innermost open container: appended
to an `array`; for a `hash`, the key-slot sentinel alternates key and
value. A non-container top silently drops the node. `none` models the
panic of `key_stack.last_mut().unwrap()` on an empty key stack. -/
def insert_new_node (st : YamlLoader) (node : Yaml × Nat) : Option YamlLoader :=
  -- Step 1 (anchor registration) only touches `anchor_map`; the container
  -- dispatch below reads `doc_stack`/`key_stack`, which step 1 leaves
  -- alone, so the updated table is computed up front as a value.
  let am := if node.2 > 0 then (node.2, node.1) :: st.anchor_map else st.anchor_map
  match st.doc_stack with
  | [] => some { st with doc_stack := [node], anchor_map := am }
  | (Yaml.array xs, paid) :: rest =>
      some { st with
               doc_stack := (Yaml.array (xs ++ [node.1]), paid) :: rest,
               anchor_map := am }
  | (Yaml.hash h, paid) :: rest =>
      match st.key_stack with
      | [] => none
      | cur_key :: ks =>
          if cur_key.is_badvalue then
            some { st with key_stack := node.1 :: ks, anchor_map := am }
          else
            some { st with
                     doc_stack := (Yaml.hash (hashInsert h cur_key node.1), paid) :: rest,
                     key_stack := Yaml.badValue :: ks,
                     anchor_map := am }
  | _ :: _ => some { st with anchor_map := am }

/-- Model of `YamlLoader::on_event` (`loader.rs:107`-`186`). `none` models the
panics (`unwrap` of a pop on an empty stack, and the `unreachable!` of
`DocumentEnd` with two or more stack entries). -/
def on_event (st : YamlLoader) (ev : Event) : Option YamlLoader :=
  match ev with
  | .documentStart | .nothing | .streamStart | .streamEnd => some st
  | .documentEnd =>
      match st.doc_stack with
      | [] => some { st with docs := st.docs ++ [Yaml.badValue] }
      | [top] => some { st with docs := st.docs ++ [top.1], doc_stack := [] }
      | _ => none
  | .sequenceStart aid _ =>
      some { st with doc_stack := (Yaml.array [], aid) :: st.doc_stack }
  | .sequenceEnd =>
      match st.doc_stack with
      | [] => none
      | node :: rest => insert_new_node { st with doc_stack := rest } node
  | .mappingStart aid _ =>
      some { st with
               doc_stack := (Yaml.hash [], aid) :: st.doc_stack,
               key_stack := Yaml.badValue :: st.key_stack }
  | .mappingEnd =>
      match st.key_stack, st.doc_stack with
      | _ :: ks, node :: rest =>
          insert_new_node { st with key_stack := ks, doc_stack := rest } node
      | _, _ => none
  | .scalar v style aid tag =>
      insert_new_node st (resolve_scalar v style tag, aid)
  | .alias id =>
      match st.anchor_map.lookup id with
      | some n => insert_new_node st (n, 0)
      | none => insert_new_node st (Yaml.badValue, 0)

/-- Feed a list of events through the loader, stopping at the first
panic. -/
def run_events (st : YamlLoader) : List Event → Option YamlLoader
  | [] => some st
  | ev :: rest =>
      match on_event st ev with
      | some st1 => run_events st1 rest
      | none => none

/-! ### Derived notions and helper lemmas -/

/-- Number of entries of `doc_stack` whose node component is a `hash`. -/
def hashCount (ds : List (Yaml × Nat)) : Nat :=
  (ds.filter (fun p => p.1.is_hash)).length

/-- Effect of one event on the length of `key_stack`: `MappingStart` pushes
one slot, `MappingEnd` pops one, nothing else changes it. -/
def keyDelta (ev : Event) (n : Nat) : Nat :=
  match ev with
  | .mappingStart _ _ => n + 1
  | .mappingEnd => n - 1
  | _ => n

/-- Running `keyDelta` over an event list. -/
def openMaps : List Event → Nat → Nat
  | [], n => n
  | ev :: rest, n => openMaps rest (keyDelta ev n)

theorem insert_new_node_anchor_map (st st' : YamlLoader) (node : Yaml × Nat)
    (h : insert_new_node st node = some st') :
    st'.anchor_map =
      if node.2 > 0 then (node.2, node.1) :: st.anchor_map else st.anchor_map := by
  obtain ⟨docs, ds, ks, am⟩ := st
  unfold insert_new_node at h
  rcases ds with _ | ⟨⟨y, paid⟩, rest⟩
  · cases h
    rfl
  · cases y <;> simp only at h
    case hash hh =>
      rcases ks with _ | ⟨k, ks⟩
      · exact absurd h (by simp)
      · by_cases hb : k.is_badvalue = true <;>
          simp only [hb, if_true, if_false, Bool.false_eq_true] at h <;>
          cases h <;> rfl
    all_goals cases h <;> rfl

theorem insert_new_node_key_stack_length (st st' : YamlLoader) (node : Yaml × Nat)
    (h : insert_new_node st node = some st') :
    st'.key_stack.length = st.key_stack.length := by
  obtain ⟨docs, ds, ks, am⟩ := st
  unfold insert_new_node at h
  rcases ds with _ | ⟨⟨y, paid⟩, rest⟩
  · cases h
    rfl
  · cases y <;> simp only at h
    case hash hh =>
      rcases ks with _ | ⟨k, ks⟩
      · exact absurd h (by simp)
      · by_cases hb : k.is_badvalue = true <;>
          simp only [hb, if_true, if_false, Bool.false_eq_true] at h <;>
          cases h <;> rfl
    all_goals cases h <;> rfl

theorem on_event_key_stack_length (st st' : YamlLoader) (ev : Event)
    (h : on_event st ev = some st') :
    st'.key_stack.length = keyDelta ev st.key_stack.length := by
  cases ev
  case nothing | streamStart | streamEnd | documentStart =>
    cases h
    rfl
  case documentEnd =>
    simp only [on_event] at h
    rcases hd : st.doc_stack with _ | ⟨top, _ | ⟨b, rest⟩⟩ <;> simp only [hd] at h <;>
      cases h <;> rfl
  case sequenceStart aid tag =>
    cases h
    rfl
  case sequenceEnd =>
    simp only [on_event] at h
    rcases hd : st.doc_stack with _ | ⟨node, rest⟩ <;> simp only [hd] at h
    · cases h
    · have := insert_new_node_key_stack_length _ _ _ h
      simpa [keyDelta] using this
  case mappingStart aid tag =>
    cases h
    simp [keyDelta]
  case mappingEnd =>
    simp only [on_event] at h
    rcases hk : st.key_stack with _ | ⟨k, ks⟩ <;>
      rcases hd : st.doc_stack with _ | ⟨node, rest⟩ <;> simp only [hk, hd] at h
    · cases h
    · cases h
    · cases h
    · have := insert_new_node_key_stack_length _ _ _ h
      simp only [this, keyDelta, hk]
      rfl
  case scalar v style aid tag =>
    exact insert_new_node_key_stack_length _ _ _ h
  case «alias» id =>
    simp only [on_event] at h
    rcases hl : List.lookup id st.anchor_map with _ | n <;> simp only [hl] at h <;>
      exact insert_new_node_key_stack_length _ _ _ h

theorem run_events_key_stack_length (evs : List Event) :
    ∀ st st' : YamlLoader, run_events st evs = some st' →
      st'.key_stack.length = openMaps evs st.key_stack.length := by
  induction evs with
  | nil =>
      intro st st' h
      cases h
      rfl
  | cons ev rest ih =>
      intro st st' h
      unfold run_events at h
      rcases he : on_event st ev with _ | st1 <;> rw [he] at h
      · cases h
      · have h1 := on_event_key_stack_length _ _ _ he
        have h2 := ih _ _ h
        rw [h2, h1]
        rfl

/-! ### Claim theorems -/

/-- Claim C1: when the insertion routine receives a node while the innermost
open container is a Hash, it alternates key/value purely via the key-slot
sentinel: a `BadValue` top of `key_stack` receives the node as pending key
with the Hash unchanged; otherwise the pending key is taken, the pair is
inserted into the Hash, and the slot resets to `BadValue`. The event
sequence MappingStart, Scalar "k", Scalar "v", MappingEnd produces the
one-entry Hash mapping the string "k" to the string "v". -/
theorem c1_hash_key_value_alternation :
    (∀ (docs : List Yaml) (hsh : List (Yaml × Yaml)) (paid : Nat) (rest : List (Yaml × Nat))
       (k : Yaml) (ks : List Yaml) (am : List (Nat × Yaml)) (n : Yaml) (aid : Nat),
       (k.is_badvalue = true →
         insert_new_node ⟨docs, (Yaml.hash hsh, paid) :: rest, k :: ks, am⟩ (n, aid) =
           some ⟨docs, (Yaml.hash hsh, paid) :: rest, n :: ks,
                 if aid > 0 then (aid, n) :: am else am⟩) ∧
       (k.is_badvalue = false →
         insert_new_node ⟨docs, (Yaml.hash hsh, paid) :: rest, k :: ks, am⟩ (n, aid) =
           some ⟨docs, (Yaml.hash (hashInsert hsh k n), paid) :: rest, Yaml.badValue :: ks,
                 if aid > 0 then (aid, n) :: am else am⟩)) ∧
    run_events YamlLoader.default
      [Event.mappingStart 0 none, Event.scalar "k" TScalarStyle.plain 0 none,
       Event.scalar "v" TScalarStyle.plain 0 none, Event.mappingEnd] =
      some ⟨[], [(Yaml.hash [(Yaml.string "k", Yaml.string "v")], 0)], [], []⟩ := by
  refine ⟨?_, rfl⟩
  intro docs hsh paid rest k ks am n aid
  constructor
  · intro hb
    simp [insert_new_node, hb]
  · intro hb
    simp [insert_new_node, hb]

/-- Witness for C1: inserting the string "v" while the string "k" is the
pending key of the innermost hash inserts the pair and resets the slot. -/
theorem c1_witness :
    insert_new_node ⟨[], [(Yaml.hash [], 0)], [Yaml.string "k"], []⟩ (Yaml.string "v", 0) =
      some ⟨[], [(Yaml.hash [(Yaml.string "k", Yaml.string "v")], 0)], [Yaml.badValue], []⟩ :=
  ((c1_hash_key_value_alternation.1 [] [] 0 [] (Yaml.string "k") [] [] (Yaml.string "v") 0).2
    rfl)

/-- Counterexample to claim C2: a node arriving with anchor id 5 while
`doc_stack` is empty is pushed back paired with 5, not with anchor id 0 as
the claim states. -/
theorem c2_counterexample :
    (insert_new_node YamlLoader.default (Yaml.string "x", 5)).map YamlLoader.doc_stack =
      some [(Yaml.string "x", 5)] ∧
    (insert_new_node YamlLoader.default (Yaml.string "x", 5)).map YamlLoader.doc_stack ≠
      some [(Yaml.string "x", 0)] := by
  refine ⟨rfl, ?_⟩
  intro hcontra
  rw [show (insert_new_node YamlLoader.default (Yaml.string "x", 5)).map YamlLoader.doc_stack =
        some [(Yaml.string "x", 5)] from rfl] at hcontra
  simp at hcontra

/-- Claim C2 (amended): for every node handed to the insertion routine while
`doc_stack` is empty, the (node, anchor id) pair is pushed back onto
`doc_stack` unchanged — keeping the anchor id it arrived with — to be
collected at the next DocumentEnd; the anchor table is extended first when
that id is positive. -/
theorem c2_root_push_keeps_pair (docs : List Yaml) (ks : List Yaml)
    (am : List (Nat × Yaml)) (node : Yaml × Nat) :
    insert_new_node ⟨docs, [], ks, am⟩ node =
      some ⟨docs, [node], ks, if node.2 > 0 then (node.2, node.1) :: am else am⟩ := by
  obtain ⟨n, aid⟩ := node
  simp [insert_new_node]

/-- Claim C3: processing DocumentEnd appends exactly one element to the
document list — the popped sole entry when `doc_stack` has one entry,
`BadValue` when it is empty — determined by `doc_stack` alone; two or more
entries hit the `unreachable!`, modelled as `none`. -/
theorem c3_document_end :
    (∀ (docs : List Yaml) (ks : List Yaml) (am : List (Nat × Yaml)),
       on_event ⟨docs, [], ks, am⟩ Event.documentEnd =
         some ⟨docs ++ [Yaml.badValue], [], ks, am⟩) ∧
    (∀ (docs : List Yaml) (top : Yaml × Nat) (ks : List Yaml) (am : List (Nat × Yaml)),
       on_event ⟨docs, [top], ks, am⟩ Event.documentEnd =
         some ⟨docs ++ [top.1], [], ks, am⟩) ∧
    (∀ (docs : List Yaml) (a b : Yaml × Nat) (rest : List (Yaml × Nat)) (ks : List Yaml)
       (am : List (Nat × Yaml)),
       on_event ⟨docs, a :: b :: rest, ks, am⟩ Event.documentEnd = none) :=
  ⟨fun _ _ _ => rfl, fun _ _ _ _ => rfl, fun _ _ _ _ _ _ => rfl⟩

/-- Claim C4: an Alias event looks up the anchor table; a missing entry
degrades to `BadValue`, a present entry hands over a clone of the stored
node; both are handed to the insertion routine with anchor id 0, and the
anchor table is never extended by an alias. A dangling alias still lets the
load succeed. -/
theorem c4_alias_resolution :
    (∀ (st : YamlLoader) (id : Nat),
       List.lookup id st.anchor_map = none →
       on_event st (Event.alias id) = insert_new_node st (Yaml.badValue, 0)) ∧
    (∀ (st : YamlLoader) (id : Nat) (n : Yaml),
       List.lookup id st.anchor_map = some n →
       on_event st (Event.alias id) = insert_new_node st (n, 0)) ∧
    (∀ (st st' : YamlLoader) (id : Nat),
       on_event st (Event.alias id) = some st' → st'.anchor_map = st.anchor_map) ∧
    run_events YamlLoader.default [Event.alias 7, Event.documentEnd] =
      some ⟨[Yaml.badValue], [], [], []⟩ := by
  refine ⟨?_, ?_, ?_, rfl⟩
  · intro st id hl
    simp only [on_event, hl]
  · intro st id n hl
    simp only [on_event, hl]
  · intro st st' id h
    simp only [on_event] at h
    rcases hl : List.lookup id st.anchor_map with _ | n <;> simp only [hl] at h <;>
      · have := insert_new_node_anchor_map _ _ _ h
        simpa using this

/-- Witness for C4: an alias to the undefined anchor id 7 on the initial
state is handed to the insertion routine as `BadValue` with anchor id 0. -/
theorem c4_witness :
    on_event YamlLoader.default (Event.alias 7) =
      insert_new_node YamlLoader.default (Yaml.badValue, 0) :=
  c4_alias_resolution.1 YamlLoader.default 7 rfl

/-- Claim C7: a scalar whose presentation style is not plain resolves to
the string of its text, for every text and every (or no) tag. -/
theorem c7_nonplain_is_string (v : String) (style : TScalarStyle) (tag : Option Tag)
    (hstyle : style ≠ TScalarStyle.plain) :
    resolve_scalar v style tag = Yaml.string v := by
  simp [resolve_scalar, hstyle]

/-- Witness for C7: a double-quoted scalar with an explicit core-schema
`int` tag still resolves to a string. -/
theorem c7_witness :
    resolve_scalar "x" TScalarStyle.doubleQuoted
        (some ⟨"tag:yaml.org,2002:", "int"⟩) = Yaml.string "x" :=
  c7_nonplain_is_string "x" TScalarStyle.doubleQuoted
    (some ⟨"tag:yaml.org,2002:", "int"⟩) (by decide)

/-- Claim C5: a plain scalar with an explicit core-schema tag whose text
does not match the tag resolves to `BadValue`: `bool` with a non-boolean
literal, `int` with text that does not parse as a 64-bit signed integer
(e.g. "abc"), `float` with text failing the float rule, and `null` with
text other than exactly "~" or "null" (which alone give Null). -/
theorem c5_tag_mismatch_badvalue :
    (∀ v : String, parseBool v = none →
       resolve_scalar v TScalarStyle.plain (some ⟨"tag:yaml.org,2002:", "bool"⟩) =
         Yaml.badValue) ∧
    (∀ v : String, parseI64 v = none →
       resolve_scalar v TScalarStyle.plain (some ⟨"tag:yaml.org,2002:", "int"⟩) =
         Yaml.badValue) ∧
    resolve_scalar "abc" TScalarStyle.plain (some ⟨"tag:yaml.org,2002:", "int"⟩) =
      Yaml.badValue ∧
    (∀ v : String, parse_f64 v = none →
       resolve_scalar v TScalarStyle.plain (some ⟨"tag:yaml.org,2002:", "float"⟩) =
         Yaml.badValue) ∧
    (∀ v : String,
       resolve_scalar v TScalarStyle.plain (some ⟨"tag:yaml.org,2002:", "null"⟩) =
         if v = "~" ∨ v = "null" then Yaml.null else Yaml.badValue) := by
  refine ⟨?_, ?_, rfl, ?_, fun v => rfl⟩
  · intro v hv
    rw [show resolve_scalar v TScalarStyle.plain (some ⟨"tag:yaml.org,2002:", "bool"⟩) =
          (match parseBool v with
           | none => Yaml.badValue
           | some b => Yaml.boolean b) from rfl, hv]
  · intro v hv
    rw [show resolve_scalar v TScalarStyle.plain (some ⟨"tag:yaml.org,2002:", "int"⟩) =
          (match parseI64 v with
           | none => Yaml.badValue
           | some i => Yaml.integer i) from rfl, hv]
  · intro v hv
    rw [show resolve_scalar v TScalarStyle.plain (some ⟨"tag:yaml.org,2002:", "float"⟩) =
          (match parse_f64 v with
           | some _ => Yaml.real v
           | none => Yaml.badValue) from rfl, hv]

/-- Witness for C5: the explicit core-schema `bool` tag on the plain text
"yes" (not a boolean literal for `str::parse::<bool>`) gives `BadValue`. -/
theorem c5_witness :
    resolve_scalar "yes" TScalarStyle.plain (some ⟨"tag:yaml.org,2002:", "bool"⟩) =
      Yaml.badValue :=
  c5_tag_mismatch_badvalue.1 "yes" rfl

/-- Claim C6: `parse_f64` maps exactly the listed tokens to positive
infinity, negative infinity and NaN, and otherwise falls back to the
standard decimal parse; every successful float parse of a `float`-tagged
plain scalar resolves to `Real` carrying the original, unmodified text. -/
theorem c6_float_rule :
    (∀ v : String, v ∈ [".inf", ".Inf", ".INF", "+.inf", "+.Inf", "+.INF"] →
       parse_f64 v = some FloatVal.posInf) ∧
    (∀ v : String, v ∈ ["-.inf", "-.Inf", "-.INF"] →
       parse_f64 v = some FloatVal.negInf) ∧
    (∀ v : String, v ∈ [".nan", "NaN", ".NAN"] → parse_f64 v = some FloatVal.nan) ∧
    (∀ v : String,
       v ∉ [".inf", ".Inf", ".INF", "+.inf", "+.Inf", "+.INF", "-.inf", "-.Inf", "-.INF",
            ".nan", "NaN", ".NAN"] →
       parse_f64 v = stdParseF64 v) ∧
    (∀ (v : String) (f : FloatVal), parse_f64 v = some f →
       resolve_scalar v TScalarStyle.plain (some ⟨"tag:yaml.org,2002:", "float"⟩) =
         Yaml.real v) := by
  refine ⟨?_, ?_, ?_, ?_, ?_⟩
  · intro v hv
    simp only [List.mem_cons, List.not_mem_nil, or_false] at hv
    rcases hv with rfl | rfl | rfl | rfl | rfl | rfl <;> rfl
  · intro v hv
    simp only [List.mem_cons, List.not_mem_nil, or_false] at hv
    rcases hv with rfl | rfl | rfl <;> rfl
  · intro v hv
    simp only [List.mem_cons, List.not_mem_nil, or_false] at hv
    rcases hv with rfl | rfl | rfl <;> rfl
  · intro v hv
    simp only [List.mem_cons, List.not_mem_nil, or_false] at hv
    push_neg at hv
    obtain ⟨h1, h2, h3, h4, h5, h6, h7, h8, h9, h10, h11, h12⟩ := hv
    simp [parse_f64, h1, h2, h3, h4, h5, h6, h7, h8, h9, h10, h11, h12]
  · intro v f hf
    rw [show resolve_scalar v TScalarStyle.plain (some ⟨"tag:yaml.org,2002:", "float"⟩) =
          (match parse_f64 v with
           | some _ => Yaml.real v
           | none => Yaml.badValue) from rfl, hf]

/-- Witness for C6: the token ".inf" parses to positive infinity, and the
`float`-tagged plain scalar ".inf" resolves to `Real` with that text. -/
theorem c6_witness :
    parse_f64 ".inf" = some FloatVal.posInf ∧
    resolve_scalar ".inf" TScalarStyle.plain (some ⟨"tag:yaml.org,2002:", "float"⟩) =
      Yaml.real ".inf" :=
  ⟨c6_float_rule.1 ".inf" (by simp), c6_float_rule.2.2.2.2 ".inf" FloatVal.posInf rfl⟩

/-- Counterexample to claim C8: after MappingStart followed by MappingEnd
the completed empty Hash rests on `doc_stack` as pending document root
while `key_stack` is empty, so the number of Hash nodes on `doc_stack` (1)
differs from the length of `key_stack` (0). -/
theorem c8_counterexample :
    run_events YamlLoader.default [Event.mappingStart 0 none, Event.mappingEnd] =
      some ⟨[], [(Yaml.hash [], 0)], [], []⟩ ∧
    ¬ (([] : List Yaml).length = hashCount [(Yaml.hash [], 0)]) :=
  ⟨rfl, by decide⟩

/-- Claim C8 (amended): from the initial empty state, every successfully
processed event stream leaves `key_stack` with exactly one slot per
currently-open mapping — MappingStart adds one, MappingEnd removes one, no
other event changes its length — i.e. its length equals the running count
`openMaps` of unmatched MappingStart events. -/
theorem c8_key_stack_tracks_open_mappings (evs : List Event) (st' : YamlLoader)
    (h : run_events YamlLoader.default evs = some st') :
    st'.key_stack.length = openMaps evs 0 :=
  run_events_key_stack_length evs YamlLoader.default st' h

/-- Witness for C8 (amended): one MappingStart from the initial state
leaves one key slot. -/
theorem c8_witness :
    ([Yaml.badValue] : List Yaml).length = openMaps [Event.mappingStart 0 none] 0 :=
  c8_key_stack_tracks_open_mappings [Event.mappingStart 0 none]
    ⟨[], [(Yaml.hash [], 0)], [Yaml.badValue], []⟩ rfl

/-- Claim C9: a node handed to the insertion routine while the innermost
`doc_stack` entry is neither an array nor a hash is silently discarded:
`docs`, `doc_stack` and `key_stack` are unchanged, and only a positive
anchor id changes the anchor table. -/
theorem c9_non_container_drops_node (docs : List Yaml) (p : Yaml × Nat)
    (rest : List (Yaml × Nat)) (ks : List Yaml) (am : List (Nat × Yaml))
    (n : Yaml) (aid : Nat)
    (hA : p.1.is_array = false) (hH : p.1.is_hash = false) :
    insert_new_node ⟨docs, p :: rest, ks, am⟩ (n, aid) =
      some ⟨docs, p :: rest, ks, if aid > 0 then (aid, n) :: am else am⟩ := by
  obtain ⟨y, paid⟩ := p
  cases y
  case array xs => simp [Yaml.is_array] at hA
  case hash hh => simp [Yaml.is_hash] at hH
  all_goals simp [insert_new_node]

/-- Witness for C9: inserting an anchored Null while a root scalar occupies
`doc_stack` only records the anchor and drops the node. -/
theorem c9_witness :
    insert_new_node ⟨[], [(Yaml.string "s", 0)], [], []⟩ (Yaml.null, 3) =
      some ⟨[], [(Yaml.string "s", 0)], [], [(3, Yaml.null)]⟩ :=
  c9_non_container_drops_node [] (Yaml.string "s", 0) [] [] [] Yaml.null 3 rfl rfl

/-- Claim C10: completing a second node with the same positive anchor id
overwrites the anchor-table entry, so a subsequent Alias event resolves to
(a clone of) the later node. -/
theorem c10_anchor_overwrite (st st' : YamlLoader) (a : Nat) (n1 n2 : Yaml)
    (ha : 0 < a) (h1 : List.lookup a st.anchor_map = some n1)
    (h2 : insert_new_node st (n2, a) = some st') :
    List.lookup a st'.anchor_map = some n2 ∧
    on_event st' (Event.alias a) = insert_new_node st' (n2, 0) := by
  have ham : st'.anchor_map = (a, n2) :: st.anchor_map := by
    have := insert_new_node_anchor_map _ _ _ h2
    simpa [ha] using this
  have hlook : List.lookup a st'.anchor_map = some n2 := by
    rw [ham]
    simp [List.lookup]
  refine ⟨hlook, ?_⟩
  rw [show on_event st' (Event.alias a) =
        (match List.lookup a st'.anchor_map with
         | some n => insert_new_node st' (n, 0)
         | none => insert_new_node st' (Yaml.badValue, 0)) from rfl, hlook]

/-- Witness for C10: re-anchoring id 1 to the string "b" after it named the
string "a" makes a following alias hand over "b". -/
theorem c10_witness :
    List.lookup 1 (YamlLoader.anchor_map
        ⟨[], [(Yaml.string "b", 1)], [], [(1, Yaml.string "b"), (1, Yaml.string "a")]⟩) =
      some (Yaml.string "b") ∧
    on_event ⟨[], [(Yaml.string "b", 1)], [], [(1, Yaml.string "b"), (1, Yaml.string "a")]⟩
        (Event.alias 1) =
      insert_new_node
        ⟨[], [(Yaml.string "b", 1)], [], [(1, Yaml.string "b"), (1, Yaml.string "a")]⟩
        (Yaml.string "b", 0) :=
  c10_anchor_overwrite ⟨[], [], [], [(1, Yaml.string "a")]⟩
    ⟨[], [(Yaml.string "b", 1)], [], [(1, Yaml.string "b"), (1, Yaml.string "a")]⟩
    1 (Yaml.string "a") (Yaml.string "b") (by decide) rfl rfl

end Saphyr
